import Mathlib

/-!
Verification of the SignLink landmark-template core (backend/process_landmarks.py,
backend/sign_classifier.py, backend/main.py) against its natural-language
specification.  Python floats are modelled exactly as rationals (ℚ); the
Euclidean square root is modelled in ℝ.  Fallible Python code (exceptions such
as numpy IndexError, AttributeError, json parse errors, HTTP 404) is modelled
with Option / Except results.
-/

instance {ε α : Type} [DecidableEq ε] [DecidableEq α] : DecidableEq (Except ε α) := fun a b =>
  match a, b with
  | Except.error x, Except.error y =>
    if h : x = y then Decidable.isTrue (by rw [h]) else Decidable.isFalse (by simp [h])
  | Except.ok x, Except.ok y =>
    if h : x = y then Decidable.isTrue (by rw [h]) else Decidable.isFalse (by simp [h])
  | Except.error _, Except.ok _ => Decidable.isFalse (by simp)
  | Except.ok _, Except.error _ => Decidable.isFalse (by simp)

namespace SignLink

/-- A single tracked landmark point, as produced by `extract_landmarks`
(a dict `{"id": idx, "x": lm.x, "y": lm.y, "z": lm.z}`). -/
structure Point where
  id : ℕ
  x : ℚ
  y : ℚ
  z : ℚ
deriving Repr, DecidableEq

/-- One step of the accumulation loop of `average_landmarks`
(`accum[point["id"]] += np.array([point["x"], point["y"], point["z"]])`).
Indexing the accumulator out of range raises numpy `IndexError`,
modelled as `none`. -/
def addPoint (accum : List (ℚ × ℚ × ℚ)) (p : Point) : Option (List (ℚ × ℚ × ℚ)) :=
  match accum[p.id]? with
  | none => none
  | some v => some (accum.set p.id (v.1 + p.x, v.2.1 + p.y, v.2.2 + p.z))

/-- `average_landmarks` from process_landmarks.py: empty input yields `[]`;
otherwise an accumulator of `len(frames[0])` zero vectors is built up over all
points of all frames, then each slot is divided by the frame count and emitted
as the point with that slot's index as its id. -/
def average_landmarks (frames : List (List Point)) : Option (List Point) :=
  match frames with
  | [] => some []
  | f0 :: _ =>
    (frames.foldlM (fun acc (f : List Point) => f.foldlM addPoint acc)
        (List.replicate f0.length ((0 : ℚ), (0 : ℚ), (0 : ℚ)))).map
      (fun accum =>
        (List.range f0.length).map (fun i =>
          let v := accum.getD i (0, 0, 0)
          { id := i,
            x := v.1 / (frames.length : ℚ),
            y := v.2.1 / (frames.length : ℚ),
            z := v.2.2 / (frames.length : ℚ) }))

/-- Sum of the x coordinates of the points with the given id inside one frame. -/
def fsumX (f : List Point) (i : ℕ) : ℚ :=
  ((f.filter (fun p => p.id == i)).map Point.x).sum

/-- Sum of the y coordinates of the points with the given id inside one frame. -/
def fsumY (f : List Point) (i : ℕ) : ℚ :=
  ((f.filter (fun p => p.id == i)).map Point.y).sum

/-- Sum of the z coordinates of the points with the given id inside one frame. -/
def fsumZ (f : List Point) (i : ℕ) : ℚ :=
  ((f.filter (fun p => p.id == i)).map Point.z).sum

/-- Sum of the x coordinates of all points with the given id across all frames. -/
def sumX (frames : List (List Point)) (i : ℕ) : ℚ :=
  (frames.map (fun f => fsumX f i)).sum

/-- Sum of the y coordinates of all points with the given id across all frames. -/
def sumY (frames : List (List Point)) (i : ℕ) : ℚ :=
  (frames.map (fun f => fsumY f i)).sum

/-- Sum of the z coordinates of all points with the given id across all frames. -/
def sumZ (frames : List (List Point)) (i : ℕ) : ℚ :=
  (frames.map (fun f => fsumZ f i)).sum

/-- A MediaPipe pose landmark as used by `detect_gestures` in main.py. -/
structure PoseLandmark where
  x : ℚ
  y : ℚ
  z : ℚ
  visibility : ℚ
deriving Repr, DecidableEq

/-- Index of the nose in the MediaPipe pose enumeration (`PoseLandmark.NOSE`). -/
def NOSE : ℕ := 0

/-- Index of the left wrist (`PoseLandmark.LEFT_WRIST`). -/
def LEFT_WRIST : ℕ := 15

/-- Index of the right wrist (`PoseLandmark.RIGHT_WRIST`). -/
def RIGHT_WRIST : ℕ := 16

/-- Vertical margin used by `detect_gestures` (`margin = 0.15`). -/
def margin : ℚ := 0.15

/-- Visibility threshold used by `detect_gestures` (`visibility_threshold = 0.2`). -/
def visibility_threshold : ℚ := 0.2

/-- The raised-wrist predicate of `detect_gestures`:
`(wrist.y < nose_y + margin) and (wrist.visibility > visibility_threshold)`. -/
def wrist_up (nose_y : ℚ) (w : PoseLandmark) : Bool :=
  decide (w.y < nose_y + margin) && decide (w.visibility > visibility_threshold)

/-- `detect_gestures` from main.py.  The landmark list is modelled as a total
map from pose-landmark index to landmark (the caller passes all 33 MediaPipe
pose points). -/
def detect_gestures (landmarks : ℕ → PoseLandmark) : Option String :=
  let nose_y := (landmarks NOSE).y
  let left_wrist := landmarks LEFT_WRIST
  let right_wrist := landmarks RIGHT_WRIST
  let left_up := wrist_up nose_y left_wrist
  let right_up := wrist_up nose_y right_wrist
  if left_up && right_up then some "양손을 들어 환영 인사를 하고 있어요."
  else if left_up then some "왼손을 들어 인사했어요."
  else if right_up then some "오른손을 들어 인사했어요."
  else none

/-- A parsed `*_landmarks.json` payload.  Each field is optional because the
Python code reads them with `payload.get(...)`.  (`alias` is a Lean keyword,
hence the `Str` suffixes.) -/
structure Payload where
  aliasStr : Option String
  signStr : Option String
  average : Option (List Point)
  frames : Option (List (List Point))
deriving Repr, DecidableEq

/-- One file discovered by the `DATA_DIR.glob("*_landmarks.json")` scan:
either its parsed payload, or a parse failure (`json.load` raised). -/
abbrev FileRecord : Type := Except Unit Payload

/-- Errors that escape the template-loading loops. -/
inductive LoadError where
  | parseError
  | attributeError
deriving Repr, DecidableEq

/-- Python `a or b` on two optional strings: `a` wins unless it is absent or
the empty string (falsy). -/
def pyOrStr : Option String → Option String → Option String
  | some s, b => if s = "" then b else some s
  | none, b => b

/-- ASCII model of Python `str.lower()`. -/
def lower (s : String) : String :=
  ⟨s.data.map Char.toLower⟩

/-- ASCII model of Python `str.upper()`. -/
def upper (s : String) : String :=
  ⟨s.data.map Char.toUpper⟩

/-- Python dict assignment `m[k] = v`: an existing key keeps its position and
gets the new value, a new key is appended. -/
def dictInsert {κ α : Type} [DecidableEq κ] (m : List (κ × α)) (k : κ) (v : α) :
    List (κ × α) :=
  if m.any (fun e => e.1 = k) then m.map (fun e => if e.1 = k then (k, v) else e)
  else m ++ [(k, v)]

/-- Python `m.get(k)` on a dict. -/
def dictGet {κ α : Type} [DecidableEq κ] (m : List (κ × α)) (k : κ) : Option α :=
  (m.find? (fun e => e.1 = k)).map Prod.snd

/-- `load_templates` from sign_classifier.py: scan all files, take
`payload.get("alias") or payload.get("sign")`, lowercase it, and map it to
`payload.get("average", [])`.  A file that fails to parse propagates the
`json.load` exception; a payload with neither alias nor sign raises
`AttributeError` on `None.lower()`.  Either exception aborts the whole scan. -/
def load_templates (files : List FileRecord) :
    Except LoadError (List (String × List Point)) :=
  files.foldlM (fun templates file =>
    match file with
    | Except.error _ => Except.error LoadError.parseError
    | Except.ok payload =>
      match pyOrStr payload.aliasStr payload.signStr with
      | none => Except.error LoadError.attributeError
      | some a => Except.ok (dictInsert templates (lower a) (payload.average.getD [])))
    []

/-- `load_landmark_templates` from main.py: same scan, but it mutates the
module-level `SIGN_LANDMARKS` dict (passed here as `st`) and stores the whole
payload.  On an exception the entries inserted so far remain in the dict, so
the result is the final dict state paired with the exception, if any. -/
def load_landmark_templates (st : List (String × Payload)) (files : List FileRecord) :
    List (String × Payload) × Option LoadError :=
  match files with
  | [] => (st, none)
  | file :: rest =>
    match file with
    | Except.error _ => (st, some LoadError.parseError)
    | Except.ok payload =>
      match pyOrStr payload.aliasStr payload.signStr with
      | none => (st, some LoadError.attributeError)
      | some a => load_landmark_templates (dictInsert st (lower a) payload) rest

/-- HTTP-level failure raised by the `/landmarks/{sign}` endpoint. -/
inductive HTTPError where
  | notFound
deriving Repr, DecidableEq

/-- The lookup core of `get_sign_landmarks` (main.py lines 76-79): lowercase
the query, fetch from the mapping, 404 when absent. -/
def lookupSign (store : List (String × Payload)) (sign : String) :
    Except HTTPError Payload :=
  match dictGet store (lower sign) with
  | none => Except.error HTTPError.notFound
  | some payload => Except.ok payload

/-- Squared Euclidean distance between two points, the radicand of
`euclidean_distance` in sign_classifier.py. -/
def dist2 (p1 p2 : Point) : ℚ :=
  (p1.x - p2.x) ^ 2 + (p1.y - p2.y) ^ 2 + (p1.z - p2.z) ^ 2

/-- `euclidean_distance` from sign_classifier.py:
`sqrt((x1-x2)**2 + (y1-y2)**2 + (z1-z2)**2)`. -/
noncomputable def euclidean_distance (p1 p2 : Point) : ℝ :=
  Real.sqrt ((dist2 p1 p2 : ℚ) : ℝ)

/-- The frame-level score of `classify`:
`sum(euclidean_distance(landmarks[i], template[i]) for i in range(len(template))) / len(template)`,
pairing points by positional index. -/
noncomputable def score (landmarks template : List Point) : ℝ :=
  (List.zipWith euclidean_distance landmarks template).sum / (template.length : ℝ)

/-- One iteration of the `classify` loop.  The running best is `none` while
`best_label is None and best_score == inf`; a template of mismatched length is
skipped, otherwise its score replaces the best exactly when strictly lower. -/
noncomputable def classifyStep (landmarks : List Point)
    (best : Option (String × ℝ)) (entry : String × List Point) :
    Option (String × ℝ) :=
  if entry.2.length ≠ landmarks.length then best
  else
    match best with
    | none => some (entry.1, score landmarks entry.2)
    | some b =>
      if score landmarks entry.2 < b.2 then some (entry.1, score landmarks entry.2)
      else some b

/-- The selection loop of `classify` (sign_classifier.py lines 32-48), given
the already-loaded template mapping in iteration order.  Returns `None` when
the store or the live frame is empty, else the best label found. -/
noncomputable def classify (templates : List (String × List Point))
    (landmarks : List Point) : Option String :=
  if templates.isEmpty || landmarks.isEmpty then none
  else (templates.foldl (classifyStep landmarks) none).map Prod.fst

/-- Python truthiness of the optional `limit_frames` argument: `None` and `0`
are falsy. -/
def pyTruthy : Option ℕ → Bool
  | none => false
  | some k => decide (k ≠ 0)

/-- One row of the exported dataset: the `label` value and, keyed by point id,
the `x_<id>, y_<id>, z_<id>` columns (written together per point, later
points with the same id overwriting earlier ones, as in a Python dict). -/
structure Row where
  label : Option String
  cols : List (ℕ × (ℚ × ℚ × ℚ))
deriving Repr, DecidableEq

/-- Build one dataset row from a raw frame (`row = {"label": alias}` followed
by `row[f"x_{id}"] = ...` etc. for each point). -/
def rowOfFrame (aliasV : Option String) (frame : List Point) : Row :=
  { label := aliasV,
    cols := frame.foldl (fun cols p => dictInsert cols p.id (p.x, p.y, p.z)) [] }

/-- The frames of one payload after the `if limit_frames: frames =
frames[:limit_frames]` truncation of `export_dataset`. -/
def truncFrames (limit_frames : Option ℕ) (payload : Payload) : List (List Point) :=
  let frames0 := payload.frames.getD []
  if pyTruthy limit_frames then frames0.take (limit_frames.getD 0) else frames0

/-- The rows contributed by one payload in `export_dataset`: one row per
(possibly truncated) retained raw frame, labelled with
`payload.get("alias") or payload.get("sign")`. -/
def contribution (limit_frames : Option ℕ) (payload : Payload) : List Row :=
  (truncFrames limit_frames payload).map
    (rowOfFrame (pyOrStr payload.aliasStr payload.signStr))

/-- One iteration of the `export_dataset` file loop: a parse failure aborts
the export, otherwise the payload's rows are appended. -/
def exportStep (limit_frames : Option ℕ) (rows : List Row) (file : FileRecord) :
    Except LoadError (List Row) :=
  match file with
  | Except.error _ => Except.error LoadError.parseError
  | Except.ok payload => Except.ok (rows ++ contribution limit_frames payload)

/-- `export_dataset` from sign_classifier.py: for every parsed file take its
retained raw frames, truncate them to `limit_frames` only when that limit is
truthy, and append one row per frame.  A parse failure aborts the export. -/
def export_dataset (files : List FileRecord) (limit_frames : Option ℕ) :
    Except LoadError (List Row) :=
  files.foldlM (exportStep limit_frames) []

/-- A request hitting the backend process: either the `/landmarks/{sign}`
lookup endpoint or a call into the classifier. -/
inductive Request where
  | lookupReq (sign : String)
  | classifyReq (landmarks : List Point)

/-- Process one request against the current `SIGN_LANDMARKS` state, returning
the new state and the number of template-directory scans performed.  The
lookup endpoint reloads only when the mapping is empty; `classify` begins with
`templates = load_templates()`, a fresh scan on every call. -/
def handleRequest (files : List FileRecord) (st : List (String × Payload)) :
    Request → List (String × Payload) × ℕ
  | Request.lookupReq _ =>
    if st.isEmpty then ((load_landmark_templates st files).1, 1) else (st, 0)
  | Request.classifyReq _ => (st, 1)

/-- Total number of template-directory scans performed over a request trace. -/
def totalScanCount (files : List FileRecord) (st : List (String × Payload)) :
    List Request → ℕ
  | [] => 0
  | r :: rs =>
    let res := handleRequest files st r
    res.2 + totalScanCount files res.1 rs

/-- Number of template-directory scans performed by lookup requests only. -/
def lookupScanCount (files : List FileRecord) (st : List (String × Payload)) :
    List Request → ℕ
  | [] => 0
  | r :: rs =>
    let res := handleRequest files st r
    (match r with
     | Request.lookupReq _ => res.2
     | Request.classifyReq _ => 0) + lookupScanCount files res.1 rs

/-- The origin point with id 0, used in concrete test inputs. -/
def pt0 : Point := { id := 0, x := 0, y := 0, z := 0 }

/-- A point whose id is 1, used as the sole point of a one-point frame. -/
def pt1 : Point := { id := 1, x := 0, y := 0, z := 0 }

/-- A sample point for averaging tests. -/
def ptA : Point := { id := 0, x := 1, y := 2, z := 3 }

/-- A second sample point for averaging tests. -/
def ptB : Point := { id := 0, x := 3, y := 2, z := 1 }

/-- A point at unit distance from `pt0`, used in classification tests. -/
def ptFar : Point := { id := 0, x := 0, y := 1, z := 0 }

/-- A well-formed persisted template record for the sign "Hello". -/
def helloPayload : Payload :=
  { aliasStr := some "Hello"
    signStr := none
    average := some [pt0]
    frames := some [[pt0]] }

/-- A persisted record that is missing its required fields: it has neither an
`alias` nor a `sign` entry, so `alias.lower()` raises `AttributeError`. -/
def unlabeledPayload : Payload :=
  { aliasStr := none
    signStr := none
    average := some [pt0]
    frames := some [[pt0]] }

/-! ### Theorems -/

/-- C4: averaging an empty frame sequence yields the empty frame (and no
error), and classifying an empty live frame yields `None` whatever the
template store contains; neither operation fails. -/
theorem empty_input_law :
    average_landmarks [] = some [] ∧
    ∀ templates : List (String × List Point), classify templates [] = none := by
  constructor
  · rfl
  · intro templates
    simp [classify]

/-- C6: a wrist counts as raised exactly when `wrist.y < nose.y + 0.15` and
`wrist.visibility > 0.2`; a wrist exactly at the margin boundary is not
raised, one strictly below it with sufficient visibility is; and
`detect_gestures` reports a gesture precisely when one of the two wrists is
raised in this sense. -/
theorem detect_gestures_raised_iff :
    margin = 15 / 100 ∧ visibility_threshold = 2 / 10 ∧
    (∀ (nose_y : ℚ) (w : PoseLandmark),
      (wrist_up nose_y w = true ↔
        w.y < nose_y + 15 / 100 ∧ w.visibility > 2 / 10) ∧
      (w.y = nose_y + 15 / 100 → wrist_up nose_y w = false) ∧
      (w.y < nose_y + 15 / 100 → w.visibility > 2 / 10 →
        wrist_up nose_y w = true)) ∧
    (∀ landmarks : ℕ → PoseLandmark,
      detect_gestures landmarks ≠ none ↔
        (wrist_up (landmarks NOSE).y (landmarks LEFT_WRIST) = true ∨
         wrist_up (landmarks NOSE).y (landmarks RIGHT_WRIST) = true)) := by
  have hm : margin = 15 / 100 := by norm_num [margin]
  have hv : visibility_threshold = 2 / 10 := by norm_num [visibility_threshold]
  refine ⟨hm, hv, ?_, ?_⟩
  · intro nose_y w
    refine ⟨?_, ?_, ?_⟩
    · simp [wrist_up, hm, hv]
    · intro hb
      simp [wrist_up, hm, hv, hb]
    · intro h1 h2
      simp [wrist_up, hm, hv, h1, h2]
  · intro landmarks
    cases hl : wrist_up (landmarks NOSE).y (landmarks LEFT_WRIST) <;>
      cases hr : wrist_up (landmarks NOSE).y (landmarks RIGHT_WRIST) <;>
        simp [detect_gestures, hl, hr]

/-- Witness for C6 at a concrete input: with the nose at `y = 0`, a fully
visible wrist exactly at `y = 0.15` is not raised, while one at `y = 0.1` is. -/
theorem detect_gestures_raised_iff_witness :
    wrist_up 0 { x := 0, y := 15 / 100, z := 0, visibility := 1 } = false ∧
    wrist_up 0 { x := 0, y := 1 / 10, z := 0, visibility := 1 } = true := by
  constructor
  · exact (detect_gestures_raised_iff.2.2.1 0 _).2.1 (by norm_num)
  · exact (detect_gestures_raised_iff.2.2.1 0 _).2.2 (by norm_num) (by norm_num)

/-- C10: calling `export_dataset` with `limit_frames = 0` behaves exactly like
calling it with no limit at all, because the truncation is applied only when
the limit value is truthy. -/
theorem export_dataset_zero_limit (files : List FileRecord) :
    export_dataset files (some 0) = export_dataset files none := by
  have h : exportStep (some 0) = exportStep none := by
    funext rows file
    cases file with
    | error e => rfl
    | ok p => simp [exportStep, contribution, truncFrames, pyTruthy]
  unfold export_dataset
  rw [h]

/-- C5 (contradicted by the code): the loading loops contain no exception
handling, so a single malformed record — unparseable, or missing both the
`alias` and `sign` fields — aborts the whole store load and loses every
well-formed template, instead of being skipped.  The same well-formed record
loads fine on its own, and the main.py loader aborts identically. -/
theorem load_templates_malformed_aborts_load :
    load_templates [Except.ok helloPayload, Except.error ()] =
      Except.error LoadError.parseError ∧
    load_templates [Except.ok helloPayload, Except.ok unlabeledPayload] =
      Except.error LoadError.attributeError ∧
    load_templates [Except.ok helloPayload] = Except.ok [("hello", [pt0])] ∧
    (load_landmark_templates [] [Except.ok helloPayload, Except.error ()]).2 =
      some LoadError.parseError := by
  refine ⟨by decide, by decide, by decide, by decide⟩

/-- Accumulation lemma for `export_dataset`: on a list of well-parsed files it
never fails and produces the concatenation of the per-payload contributions. -/
theorem foldlM_exportStep_ok (lim : Option ℕ) (payloads : List Payload) :
    ∀ acc : List Row,
      List.foldlM (exportStep lim) acc (payloads.map Except.ok) =
        Except.ok (acc ++ payloads.flatMap (contribution lim)) := by
  induction payloads with
  | nil =>
    intro acc
    simp only [List.map_nil, List.foldlM_nil, List.flatMap_nil, List.append_nil]
    rfl
  | cons p ps ih =>
    intro acc
    simp only [List.map_cons, List.foldlM_cons, exportStep]
    rw [show (Except.ok (acc ++ contribution lim p) >>=
          fun acc => List.foldlM (exportStep lim) acc (ps.map Except.ok)) =
        List.foldlM (exportStep lim) (acc ++ contribution lim p) (ps.map Except.ok)
      from rfl]
    rw [ih]
    simp [List.flatMap_cons, List.append_assoc]

/-- C9: exporting with a raw-frame limit `K ≥ 1` from a store whose records
all retain at least `K` raw frames produces, for each sign, exactly `K` rows —
one per retained raw frame up to the limit, each carrying the sign's label and
the coordinate columns of every point of that frame. -/
theorem export_dataset_limit_rows (payloads : List Payload) (K : ℕ) (hK : 1 ≤ K)
    (hR : ∀ p ∈ payloads, K ≤ (p.frames.getD []).length) :
    export_dataset (payloads.map Except.ok) (some K) =
      Except.ok (payloads.flatMap (contribution (some K))) ∧
    ∀ p ∈ payloads,
      contribution (some K) p =
        ((p.frames.getD []).take K).map
          (rowOfFrame (pyOrStr p.aliasStr p.signStr)) ∧
      (contribution (some K) p).length = K := by
  have htrunc : ∀ p : Payload, truncFrames (some K) p = (p.frames.getD []).take K := by
    intro p
    have : pyTruthy (some K) = true := by
      simp [pyTruthy]
      omega
    simp [truncFrames, this]
  constructor
  · exact foldlM_exportStep_ok (some K) payloads []
  · intro p hp
    constructor
    · simp [contribution, htrunc p]
    · have hlen : ((p.frames.getD []).take K).length = K := by
        rw [List.length_take]
        exact Nat.min_eq_left (hR p hp)
      simp only [contribution, htrunc p, List.length_map]
      exact hlen

/-- Witness for C9 at a concrete input: one stored sign with one retained raw
frame, exported with limit 1, yields exactly one row for that sign. -/
theorem export_dataset_limit_rows_witness :
    export_dataset [Except.ok helloPayload] (some 1) =
      Except.ok ([helloPayload].flatMap (contribution (some 1))) ∧
    ∀ p ∈ [helloPayload],
      contribution (some 1) p =
        ((p.frames.getD []).take 1).map
          (rowOfFrame (pyOrStr p.aliasStr p.signStr)) ∧
      (contribution (some 1) p).length = 1 := by
  have h := export_dataset_limit_rows [helloPayload] 1 (by decide) (by decide)
  simpa using h

/-- Counterexample input for the dataset-export row-count claim at limit 0:
one sign retaining one raw frame exports one row, not zero rows. -/
theorem export_dataset_zero_limit_not_zero_rows :
    export_dataset [Except.ok helloPayload] (some 0) ≠ Except.ok [] ∧
    export_dataset [Except.ok helloPayload] (some 0) =
      Except.ok [rowOfFrame (some "Hello") [pt0]] := by
  refine ⟨by decide, by decide⟩

/-- Packing a valid code point and reading it back is the identity. -/
theorem char_toNat_ofNat {n : ℕ} (h : n.isValidChar) : (Char.ofNat n).toNat = n := by
  rw [Char.ofNat, dif_pos h]
  rfl

/-- `Char.toLower` on an ASCII upper-case letter adds 32 to the code point. -/
theorem char_toLower_of_upper (c : Char) (h : 65 ≤ c.toNat ∧ c.toNat ≤ 90) :
    c.toLower = Char.ofNat (c.toNat + 32) := by
  unfold Char.toLower
  rw [if_pos]
  exact ⟨h.1, h.2⟩

/-- `Char.toLower` leaves any non-upper-case character unchanged. -/
theorem char_toLower_of_not (c : Char) (h : ¬(65 ≤ c.toNat ∧ c.toNat ≤ 90)) :
    c.toLower = c := by
  unfold Char.toLower
  rw [if_neg]
  exact fun hc => h ⟨hc.1, hc.2⟩

/-- `Char.toUpper` on an ASCII lower-case letter subtracts 32. -/
theorem char_toUpper_of_lower (c : Char) (h : 97 ≤ c.toNat ∧ c.toNat ≤ 122) :
    c.toUpper = Char.ofNat (c.toNat - 32) := by
  unfold Char.toUpper
  rw [if_pos]
  exact ⟨h.1, h.2⟩

/-- `Char.toUpper` leaves any non-lower-case character unchanged. -/
theorem char_toUpper_of_not (c : Char) (h : ¬(97 ≤ c.toNat ∧ c.toNat ≤ 122)) :
    c.toUpper = c := by
  unfold Char.toUpper
  rw [if_neg]
  exact fun hc => h ⟨hc.1, hc.2⟩

/-- Lowercasing a character is idempotent. -/
theorem char_toLower_toLower (c : Char) : c.toLower.toLower = c.toLower := by
  by_cases h : 65 ≤ c.toNat ∧ c.toNat ≤ 90
  · have hv : (c.toNat + 32).isValidChar := Or.inl (by omega)
    have h2 : (Char.ofNat (c.toNat + 32)).toNat = c.toNat + 32 := char_toNat_ofNat hv
    rw [char_toLower_of_upper c h]
    apply char_toLower_of_not
    rw [h2]
    omega
  · simp only [char_toLower_of_not c h]

/-- Lowercasing after uppercasing agrees with lowercasing directly. -/
theorem char_toLower_toUpper (c : Char) : c.toUpper.toLower = c.toLower := by
  by_cases h : 97 ≤ c.toNat ∧ c.toNat ≤ 122
  · have hv : (c.toNat - 32).isValidChar := Or.inl (by omega)
    have h2 : (Char.ofNat (c.toNat - 32)).toNat = c.toNat - 32 := char_toNat_ofNat hv
    rw [char_toUpper_of_lower c h, char_toLower_of_upper _ (by rw [h2]; omega),
      char_toLower_of_not c (by omega), h2]
    have : c.toNat - 32 + 32 = c.toNat := by omega
    rw [this, Char.ofNat_toNat]
  · rw [char_toUpper_of_not c h]

/-- Python-style lowercasing of a string is idempotent. -/
theorem lower_lower (s : String) : lower (lower s) = lower s := by
  unfold lower
  cases s with
  | mk data =>
    simp only [List.map_map]
    congr 1
    apply List.map_congr_left
    intro c _
    exact char_toLower_toLower c

/-- Lowercasing after uppercasing a string agrees with lowercasing directly. -/
theorem lower_upper (s : String) : lower (upper s) = lower s := by
  unfold lower upper
  cases s with
  | mk data =>
    simp only [List.map_map]
    congr 1
    apply List.map_congr_left
    intro c _
    exact char_toLower_toUpper c

/-- Every key of `dictInsert m k v` is `k` or a key of `m`. -/
theorem dictInsert_keys {κ α : Type} [DecidableEq κ] (m : List (κ × α)) (k : κ)
    (v : α) : ∀ e ∈ dictInsert m k v, e.1 = k ∨ ∃ e0 ∈ m, e.1 = e0.1 := by
  intro e he
  unfold dictInsert at he
  by_cases hmem : m.any (fun e => decide (e.1 = k)) = true
  · rw [if_pos hmem] at he
    obtain ⟨e0, he0, heq⟩ := List.mem_map.mp he
    by_cases h0 : e0.1 = k
    · rw [if_pos h0] at heq
      left
      rw [← heq]
    · rw [if_neg h0] at heq
      right
      exact ⟨e0, he0, by rw [← heq]⟩
  · rw [if_neg hmem] at he
    rcases List.mem_append.mp he with h1 | h1
    · right
      exact ⟨e, h1, rfl⟩
    · left
      rw [List.mem_singleton.mp h1]

/-- Every key inserted by `load_landmark_templates` is already lowercased. -/
theorem load_landmark_templates_keys_lower (files : List FileRecord) :
    ∀ st : List (String × Payload), (∀ e ∈ st, lower e.1 = e.1) →
      ∀ e ∈ (load_landmark_templates st files).1, lower e.1 = e.1 := by
  induction files with
  | nil =>
    intro st hst e he
    exact hst e he
  | cons file rest ih =>
    intro st hst e he
    cases file with
    | error err => exact hst e he
    | ok payload =>
      unfold load_landmark_templates at he
      cases hor : pyOrStr payload.aliasStr payload.signStr with
      | none =>
        simp only [hor] at he
        exact hst e he
      | some a =>
        simp only [hor] at he
        refine ih (dictInsert st (lower a) payload) ?_ e he
        intro e0 he0
        rcases dictInsert_keys st (lower a) payload e0 he0 with h1 | ⟨e1, he1, h1⟩
        · rw [h1, lower_lower]
        · rw [h1]
          exact hst e1 he1

/-- C7: stored keys are lowercased aliases, and lookup lowercases its query,
so looking up a label, its lowercase form, or its uppercase form all yield the
same result, and a label with no record yields the 404 not-found signal. -/
theorem lookup_case_insensitive :
    (∀ files : List FileRecord,
      ∀ e ∈ (load_landmark_templates [] files).1, lower e.1 = e.1) ∧
    (∀ (store : List (String × Payload)) (sign : String),
      lookupSign store sign = lookupSign store (lower sign) ∧
      lookupSign store sign = lookupSign store (upper sign)) ∧
    (∀ (store : List (String × Payload)) (sign : String),
      dictGet store (lower sign) = none →
      lookupSign store sign = Except.error HTTPError.notFound) := by
  refine ⟨?_, ?_, ?_⟩
  · intro files
    exact load_landmark_templates_keys_lower files [] (by intro e he; cases he)
  · intro store sign
    constructor
    · unfold lookupSign
      rw [lower_lower]
    · unfold lookupSign
      rw [lower_upper]
  · intro store sign hnone
    unfold lookupSign
    rw [hnone]

/-- Witness for C7 at a concrete input: a store loaded from one record keyed
"hello" answers "Hello", "hello" and "HELLO" identically, and an unknown sign
gets the 404 signal. -/
theorem lookup_case_insensitive_witness :
    (∀ e ∈ (load_landmark_templates [] [Except.ok helloPayload]).1,
      lower e.1 = e.1) ∧
    lookupSign [("hello", helloPayload)] "Hello" =
      lookupSign [("hello", helloPayload)] (lower "Hello") ∧
    lookupSign [("hello", helloPayload)] "Hello" =
      lookupSign [("hello", helloPayload)] (upper "Hello") ∧
    lookupSign [("hello", helloPayload)] "unknown" =
      Except.error HTTPError.notFound := by
  refine ⟨lookup_case_insensitive.1 [Except.ok helloPayload],
    (lookup_case_insensitive.2.1 [("hello", helloPayload)] "Hello").1,
    (lookup_case_insensitive.2.1 [("hello", helloPayload)] "Hello").2,
    lookup_case_insensitive.2.2 [("hello", helloPayload)] "unknown" (by decide)⟩

/-- A nonempty `SIGN_LANDMARKS` mapping is never reloaded: lookups against a
nonempty state perform no scan and leave the state unchanged. -/
theorem lookupScanCount_of_nonempty (files : List FileRecord) :
    ∀ (reqs : List Request) (st : List (String × Payload)),
      st.isEmpty = false → lookupScanCount files st reqs = 0 := by
  intro reqs
  induction reqs with
  | nil =>
    intro st hst
    rfl
  | cons r rs ih =>
    intro st hst
    cases r with
    | lookupReq s =>
      simp only [lookupScanCount, handleRequest, hst, Bool.false_eq_true, if_false,
        Nat.zero_add]
      exact ih st hst
    | classifyReq lm =>
      simp only [lookupScanCount, handleRequest, Nat.zero_add]
      exact ih st hst

/-- C8 (amended): the lookup endpoint reloads templates only while the
in-memory mapping is empty, so when the template directory yields a nonempty
mapping, lookup requests trigger at most one directory scan per process; the
classifier, by contrast, performs a fresh directory scan on every single call
(`classify` begins with `templates = load_templates()`). -/
theorem template_loading_amended (files : List FileRecord) :
    (((load_landmark_templates [] files).1).isEmpty = false →
      ∀ reqs : List Request, lookupScanCount files [] reqs ≤ 1) ∧
    (∀ (st : List (String × Payload)) (lm : List Point),
      (handleRequest files st (Request.classifyReq lm)).2 = 1) := by
  constructor
  · intro hload reqs
    induction reqs with
    | nil => exact Nat.zero_le 1
    | cons r rs ih =>
      cases r with
      | lookupReq s =>
        simp only [lookupScanCount, handleRequest, List.isEmpty_nil, if_true]
        rw [lookupScanCount_of_nonempty files rs _ hload]
      | classifyReq lm =>
        simpa only [lookupScanCount, handleRequest, Nat.zero_add] using ih
  · intro st lm
    rfl

/-- Witness for the amended C8 at a concrete input: with one stored template,
a trace of two lookups and a classification scans the directory at most once
through lookups, while the classification request itself always scans. -/
theorem template_loading_amended_witness :
    lookupScanCount [Except.ok helloPayload] []
      [Request.lookupReq "hello", Request.classifyReq [], Request.lookupReq "hi"] ≤ 1 ∧
    (handleRequest [Except.ok helloPayload] [("hello", helloPayload)]
      (Request.classifyReq [])).2 = 1 := by
  exact ⟨(template_loading_amended [Except.ok helloPayload]).1 (by decide) _,
    (template_loading_amended [Except.ok helloPayload]).2 [("hello", helloPayload)] []⟩

/-- Counterexample to C8 as stated: after the first lookup has loaded the
store, a following classifier call performs another file-system scan, so the
process performs two template-directory scans, not at most one. -/
theorem template_loading_not_at_most_once :
    totalScanCount [Except.ok helloPayload] []
      [Request.lookupReq "hello", Request.classifyReq []] = 2 ∧
    ¬ totalScanCount [Except.ok helloPayload] []
        [Request.lookupReq "hello", Request.classifyReq []] ≤ 1 := by
  refine ⟨by decide, by decide⟩

/-- Unfolding lemma: the contribution of one more point to a per-id x-sum. -/
theorem fsumX_cons (p : Point) (f : List Point) (i : ℕ) :
    fsumX (p :: f) i = if p.id = i then p.x + fsumX f i else fsumX f i := by
  unfold fsumX
  rw [List.filter_cons]
  by_cases h : p.id = i
  · simp [h]
  · simp [h]

/-- Unfolding lemma: the contribution of one more point to a per-id y-sum. -/
theorem fsumY_cons (p : Point) (f : List Point) (i : ℕ) :
    fsumY (p :: f) i = if p.id = i then p.y + fsumY f i else fsumY f i := by
  unfold fsumY
  rw [List.filter_cons]
  by_cases h : p.id = i
  · simp [h]
  · simp [h]

/-- Unfolding lemma: the contribution of one more point to a per-id z-sum. -/
theorem fsumZ_cons (p : Point) (f : List Point) (i : ℕ) :
    fsumZ (p :: f) i = if p.id = i then p.z + fsumZ f i else fsumZ f i := by
  unfold fsumZ
  rw [List.filter_cons]
  by_cases h : p.id = i
  · simp [h]
  · simp [h]

/-- Accumulating one frame with `addPoint` succeeds when all its ids are in
range, preserves the accumulator length, and adds each id's coordinate sums
to the corresponding slot. -/
theorem foldlM_addPoint_frame (f : List Point) :
    ∀ acc : List (ℚ × ℚ × ℚ), (∀ p ∈ f, p.id < acc.length) →
      ∃ r, f.foldlM addPoint acc = some r ∧ r.length = acc.length ∧
        ∀ i : ℕ, r.getD i (0, 0, 0) =
          ((acc.getD i (0, 0, 0)).1 + fsumX f i,
           (acc.getD i (0, 0, 0)).2.1 + fsumY f i,
           (acc.getD i (0, 0, 0)).2.2 + fsumZ f i) := by
  induction f with
  | nil =>
    intro acc _
    refine ⟨acc, rfl, rfl, ?_⟩
    intro i
    simp [fsumX, fsumY, fsumZ]
  | cons p f ih =>
    intro acc hids
    have hp : p.id < acc.length := hids p (List.mem_cons_self p f)
    have hsome : acc[p.id]? = some acc[p.id] := List.getElem?_eq_getElem hp
    have hstep : addPoint acc p =
        some (acc.set p.id
          (acc[p.id].1 + p.x, acc[p.id].2.1 + p.y, acc[p.id].2.2 + p.z)) := by
      unfold addPoint
      rw [hsome]
    obtain ⟨r, hr, hrlen, hrval⟩ :=
      ih (acc.set p.id (acc[p.id].1 + p.x, acc[p.id].2.1 + p.y, acc[p.id].2.2 + p.z))
        (by
          intro q hq
          rw [List.length_set]
          exact hids q (List.mem_cons_of_mem p hq))
    refine ⟨r, ?_, by rw [hrlen, List.length_set], ?_⟩
    · rw [List.foldlM_cons, hstep]
      exact hr
    · intro i
      rw [hrval i, fsumX_cons, fsumY_cons, fsumZ_cons]
      have hgetD : ∀ j : ℕ, ∀ v : ℚ × ℚ × ℚ,
          (acc.set p.id v).getD j (0, 0, 0) =
            if p.id = j then v else acc.getD j (0, 0, 0) := by
        intro j v
        by_cases hj : p.id = j
        · subst hj
          rw [if_pos rfl, List.getD_eq_getElem?_getD, List.getElem?_set_self hp]
          rfl
        · rw [if_neg hj, List.getD_eq_getElem?_getD, List.getElem?_set_ne hj,
            List.getD_eq_getElem?_getD]
      rw [hgetD i]
      by_cases hi : p.id = i
      · rw [if_pos hi, if_pos hi, if_pos hi, if_pos hi]
        subst hi
        rw [List.getD_eq_getElem?_getD, hsome]
        simp only [Option.getD_some]
        refine congrArg₂ Prod.mk ?_ (congrArg₂ Prod.mk ?_ ?_) <;> ring
      · rw [if_neg hi, if_neg hi, if_neg hi, if_neg hi]

/-- Accumulating all frames adds the global per-id sums to the accumulator. -/
theorem foldlM_addPoint_frames (frames : List (List Point)) :
    ∀ acc : List (ℚ × ℚ × ℚ), (∀ f ∈ frames, ∀ p ∈ f, p.id < acc.length) →
      ∃ r, frames.foldlM (fun acc (f : List Point) => f.foldlM addPoint acc) acc = some r ∧
        r.length = acc.length ∧
        ∀ i : ℕ, r.getD i (0, 0, 0) =
          ((acc.getD i (0, 0, 0)).1 + sumX frames i,
           (acc.getD i (0, 0, 0)).2.1 + sumY frames i,
           (acc.getD i (0, 0, 0)).2.2 + sumZ frames i) := by
  induction frames with
  | nil =>
    intro acc _
    refine ⟨acc, rfl, rfl, ?_⟩
    intro i
    simp [sumX, sumY, sumZ]
  | cons f fr ih =>
    intro acc hids
    obtain ⟨r1, hr1, hr1len, hr1val⟩ :=
      foldlM_addPoint_frame f acc (hids f (List.mem_cons_self f fr))
    obtain ⟨r, hr, hrlen, hrval⟩ := ih r1
      (by
        intro g hg q hq
        rw [hr1len]
        exact hids g (List.mem_cons_of_mem f hg) q hq)
    refine ⟨r, ?_, by rw [hrlen, hr1len], ?_⟩
    · rw [List.foldlM_cons, hr1]
      exact hr
    · intro i
      rw [hrval i, hr1val i]
      simp only [sumX, sumY, sumZ, List.map_cons, List.sum_cons]
      refine congrArg₂ Prod.mk ?_ (congrArg₂ Prod.mk ?_ ?_) <;> ring

/-- C1 (amended): when every point id occurring in any frame is below the
first frame's point count, `average_landmarks` returns, for each id, the
component-wise sum of that id's coordinates across all frames divided by the
frame count — the arithmetic mean of that id's values when every frame
contains the id. -/
theorem average_landmarks_mean (f0 : List Point) (rest : List (List Point))
    (hids : ∀ f ∈ f0 :: rest, ∀ p ∈ f, p.id < f0.length) :
    average_landmarks (f0 :: rest) =
      some ((List.range f0.length).map (fun i =>
        { id := i
          x := sumX (f0 :: rest) i / ((f0 :: rest).length : ℚ)
          y := sumY (f0 :: rest) i / ((f0 :: rest).length : ℚ)
          z := sumZ (f0 :: rest) i / ((f0 :: rest).length : ℚ) })) := by
  obtain ⟨r, hr, hrlen, hrval⟩ :=
    foldlM_addPoint_frames (f0 :: rest)
      (List.replicate f0.length ((0 : ℚ), (0 : ℚ), (0 : ℚ)))
      (by
        intro f hf p hp
        rw [List.length_replicate]
        exact hids f hf p hp)
  have hrep : ∀ i : ℕ,
      (List.replicate f0.length ((0 : ℚ), (0 : ℚ), (0 : ℚ))).getD i (0, 0, 0) =
        (0, 0, 0) := by
    intro i
    rw [List.getD_eq_getElem?_getD, List.getElem?_replicate]
    by_cases hi : i < f0.length
    · rw [if_pos hi]
      rfl
    · rw [if_neg hi]
      rfl
  have hdef : average_landmarks (f0 :: rest) =
      ((f0 :: rest).foldlM (fun acc (f : List Point) => f.foldlM addPoint acc)
          (List.replicate f0.length ((0 : ℚ), (0 : ℚ), (0 : ℚ)))).map
        (fun accum =>
          (List.range f0.length).map (fun i =>
            let v := accum.getD i (0, 0, 0)
            { id := i,
              x := v.1 / (((f0 :: rest).length : ℕ) : ℚ),
              y := v.2.1 / (((f0 :: rest).length : ℕ) : ℚ),
              z := v.2.2 / (((f0 :: rest).length : ℕ) : ℚ) })) := rfl
  rw [hdef, hr]
  rw [Option.map_some']
  congr 1
  apply List.map_congr_left
  intro i _
  rw [hrval i, hrep i]
  simp

/-- Counterexample to C1 as stated: in the single frame `[pt1]` every point id
occurs in the first frame, yet `average_landmarks` fails (numpy `IndexError`:
the accumulator has `len(frames[0]) = 1` rows but the id is 1), so no averaged
frame is returned at all. -/
theorem average_landmarks_id_out_of_range :
    (∀ f ∈ [[pt1]], ∀ p ∈ f, ∃ q ∈ [pt1], q.id = p.id) ∧
    average_landmarks [[pt1]] = none := by
  refine ⟨by decide, by decide⟩

/-- Witness for the amended C1 at a concrete input: averaging two one-point
frames yields the component-wise mean. -/
theorem average_landmarks_mean_witness :
    average_landmarks [[ptA], [ptB]] = some [{ id := 0, x := 2, y := 2, z := 2 }] := by
  have h := average_landmarks_mean [ptA] [[ptB]] (by decide)
  rw [h]
  norm_num [sumX, sumY, sumZ, fsumX, fsumY, fsumZ, ptA, ptB, List.range_succ]

/-- Per-point distances are nonnegative. -/
theorem euclidean_distance_nonneg (p1 p2 : Point) : 0 ≤ euclidean_distance p1 p2 :=
  Real.sqrt_nonneg _

/-- The distance from a point to itself is zero. -/
theorem euclidean_distance_self (p : Point) : euclidean_distance p p = 0 := by
  unfold euclidean_distance dist2
  norm_num

/-- The summed distances of any zipped pair of frames are nonnegative. -/
theorem zipWith_euclid_sum_nonneg :
    ∀ a b : List Point, 0 ≤ (List.zipWith euclidean_distance a b).sum := by
  intro a
  induction a with
  | nil => intro b; simp
  | cons p a ih =>
    intro b
    cases b with
    | nil => simp
    | cons q b =>
      rw [List.zipWith_cons_cons, List.sum_cons]
      exact add_nonneg (euclidean_distance_nonneg p q) (ih b)

/-- Frame scores are nonnegative. -/
theorem score_nonneg (lm tp : List Point) : 0 ≤ score lm tp := by
  unfold score
  exact div_nonneg (zipWith_euclid_sum_nonneg lm tp) (Nat.cast_nonneg _)

/-- A frame scores zero against itself. -/
theorem score_self (lm : List Point) : score lm lm = 0 := by
  unfold score
  have h : ∀ l : List Point, (List.zipWith euclidean_distance l l).sum = 0 := by
    intro l
    induction l with
    | nil => simp
    | cons p l ih =>
      rw [List.zipWith_cons_cons, List.sum_cons, ih, euclidean_distance_self]
      norm_num
  rw [h]
  simp

/-- The score of the one-point frame at the origin against the far point. -/
theorem score_pt0_ptFar : score [pt0] [ptFar] = 1 := by
  unfold score
  rw [List.zipWith_cons_cons, List.zipWith_nil_right, List.sum_cons, List.sum_nil]
  unfold euclidean_distance
  have h : dist2 pt0 ptFar = 1 := by norm_num [dist2, pt0, ptFar]
  rw [h]
  norm_num

/-- The `classify` loop leaves the running best at `None` exactly when it
started there and every template was skipped by the length gate. -/
theorem foldl_classifyStep_none (lm : List Point) :
    ∀ (t : List (String × List Point)) (best : Option (String × ℝ)),
      t.foldl (classifyStep lm) best = none ↔
        best = none ∧ ∀ e ∈ t, e.2.length ≠ lm.length := by
  intro t
  induction t with
  | nil =>
    intro best
    simp
  | cons e t ih =>
    intro best
    rw [List.foldl_cons, ih]
    constructor
    · rintro ⟨hstep, hrest⟩
      unfold classifyStep at hstep
      by_cases hc : e.2.length ≠ lm.length
      · rw [if_pos hc] at hstep
        refine ⟨hstep, ?_⟩
        intro g hg
        rcases List.mem_cons.mp hg with rfl | hmem
        · exact hc
        · exact hrest g hmem
      · rw [if_neg hc] at hstep
        cases best with
        | none => simp at hstep
        | some b =>
          replace hstep :
              (if score lm e.2 < b.2 then some (e.1, score lm e.2) else some b) =
                none := hstep
          by_cases hlt : score lm e.2 < b.2
          · rw [if_pos hlt] at hstep
            simp at hstep
          · rw [if_neg hlt] at hstep
            simp at hstep
    · rintro ⟨hb, hall⟩
      have hc : e.2.length ≠ lm.length := hall e (List.mem_cons_self e t)
      refine ⟨?_, fun g hg => hall g (List.mem_cons_of_mem e hg)⟩
      unfold classifyStep
      rw [if_pos hc]
      exact hb

/-- Full characterization of the `classify` selection loop: if the fold ends
at `some (l, s)`, then either the initial best survived untouched and beats
every compatible template, or the winner sits at some index of the list,
scores `s`, strictly beats the initial best, weakly beats every compatible
template, and strictly beats every earlier compatible template. -/
theorem foldl_classifyStep_spec (lm : List Point) :
    ∀ (t : List (String × List Point)) (best : Option (String × ℝ))
      (l : String) (s : ℝ),
      t.foldl (classifyStep lm) best = some (l, s) →
      (best = some (l, s) ∧
        ∀ e ∈ t, e.2.length = lm.length → s ≤ score lm e.2) ∨
      (∃ i, ∃ h : i < t.length,
        (t.get ⟨i, h⟩).1 = l ∧ (t.get ⟨i, h⟩).2.length = lm.length ∧
        s = score lm (t.get ⟨i, h⟩).2 ∧
        (∀ b : String × ℝ, best = some b → s < b.2) ∧
        (∀ j, ∀ hj : j < t.length, (t.get ⟨j, hj⟩).2.length = lm.length →
          s ≤ score lm (t.get ⟨j, hj⟩).2) ∧
        (∀ j, ∀ hj : j < t.length, j < i →
          (t.get ⟨j, hj⟩).2.length = lm.length →
          s < score lm (t.get ⟨j, hj⟩).2)) := by
  intro t
  induction t with
  | nil =>
    intro best l s h
    left
    exact ⟨h, fun e he => absurd he (List.not_mem_nil e)⟩
  | cons e t ih =>
    intro best l s h
    rw [List.foldl_cons] at h
    rcases ih (classifyStep lm best e) l s h with ⟨hstep, hrest⟩ | hwin
    · by_cases hc : e.2.length ≠ lm.length
      · unfold classifyStep at hstep
        rw [if_pos hc] at hstep
        left
        refine ⟨hstep, ?_⟩
        intro g hg hcg
        rcases List.mem_cons.mp hg with rfl | hmem
        · exact absurd hcg hc
        · exact hrest g hmem hcg
      · have hceq : e.2.length = lm.length := not_ne_iff.mp hc
        unfold classifyStep at hstep
        rw [if_neg hc] at hstep
        cases best with
        | none =>
          replace hstep : some (e.1, score lm e.2) = some (l, s) := hstep
          injection hstep with hpair
          injection hpair with hlab hsc
          right
          refine ⟨0, by simp, hlab, hceq, hsc.symm, ?_, ?_, ?_⟩
          · intro b hb
            cases hb
          · intro j hj hcj
            cases j with
            | zero => exact hsc.ge
            | succ j => exact hrest _ (List.get_mem t j _) hcj
          · intro j hj hji hcj
            exact absurd hji (Nat.not_lt_zero j)
        | some b =>
          replace hstep :
              (if score lm e.2 < b.2 then some (e.1, score lm e.2) else some b) =
                some (l, s) := hstep
          by_cases hlt : score lm e.2 < b.2
          · rw [if_pos hlt] at hstep
            injection hstep with hpair
            injection hpair with hlab hsc
            right
            refine ⟨0, by simp, hlab, hceq, hsc.symm, ?_, ?_, ?_⟩
            · intro b2 hb2
              injection hb2 with hb2
              rw [← hb2, ← hsc]
              exact hlt
            · intro j hj hcj
              cases j with
              | zero => exact hsc.ge
              | succ j => exact hrest _ (List.get_mem t j _) hcj
            · intro j hj hji hcj
              exact absurd hji (Nat.not_lt_zero j)
          · rw [if_neg hlt] at hstep
            injection hstep with hpair
            left
            refine ⟨by rw [hpair], ?_⟩
            intro g hg hcg
            rcases List.mem_cons.mp hg with rfl | hmem
            · have hs2 : b.2 = s := by rw [hpair]
              rw [← hs2]
              exact le_of_not_lt hlt
            · exact hrest g hmem hcg
    · obtain ⟨i, hi, h1, h2, h3, h4, h5, h6⟩ := hwin
      have hstrict : e.2.length = lm.length → s < score lm e.2 := by
        intro hce
        unfold classifyStep at h4
        rw [if_neg (not_ne_iff.mpr hce)] at h4
        cases best with
        | none => exact h4 (e.1, score lm e.2) rfl
        | some b =>
          by_cases hlt : score lm e.2 < b.2
          · exact h4 (e.1, score lm e.2) (if_pos hlt)
          · exact lt_of_lt_of_le (h4 b (if_neg hlt)) (le_of_not_lt hlt)
      right
      refine ⟨i + 1, Nat.succ_lt_succ hi, h1, h2, h3, ?_, ?_, ?_⟩
      · intro b hb
        subst hb
        unfold classifyStep at h4
        by_cases hc : e.2.length ≠ lm.length
        · exact h4 b (by rw [if_pos hc])
        · rw [if_neg hc] at h4
          by_cases hlt : score lm e.2 < b.2
          · exact lt_trans (h4 (e.1, score lm e.2) (if_pos hlt)) hlt
          · exact h4 b (if_neg hlt)
      · intro j hj hcj
        cases j with
        | zero => exact le_of_lt (hstrict hcj)
        | succ j => exact h5 j (Nat.lt_of_succ_lt_succ hj) hcj
      · intro j hj hji hcj
        cases j with
        | zero => exact hstrict hcj
        | succ j => exact h6 j (Nat.lt_of_succ_lt_succ hj) (Nat.lt_of_succ_lt_succ hji) hcj

/-- The `classify` loop never looks at templates rejected by the length gate:
folding over a template list equals folding over its compatible sublist. -/
theorem foldl_classifyStep_filter (lm : List Point) :
    ∀ (t : List (String × List Point)) (best : Option (String × ℝ)),
      t.foldl (classifyStep lm) best =
        (t.filter (fun e => e.2.length == lm.length)).foldl (classifyStep lm) best := by
  intro t
  induction t with
  | nil =>
    intro best
    rfl
  | cons e t ih =>
    intro best
    rw [List.foldl_cons, List.filter_cons]
    by_cases hc : e.2.length = lm.length
    · rw [if_pos (by simp [hc]), List.foldl_cons]
      exact ih (classifyStep lm best e)
    · rw [if_neg (by simp [hc])]
      have hstep : classifyStep lm best e = best := by
        unfold classifyStep
        rw [if_pos hc]
      rw [hstep]
      exact ih best

/-- C2: a template whose point count differs from the live frame's is skipped
entirely — classification over the full store equals classification over the
compatible templates only, and any returned label belongs to a template whose
point count equals the live frame's. -/
theorem classify_skips_incompatible (t : List (String × List Point)) (lm : List Point) :
    classify t lm = classify (t.filter (fun e => e.2.length == lm.length)) lm ∧
    ∀ label, classify t lm = some label →
      ∃ f, (label, f) ∈ t ∧ f.length = lm.length := by
  constructor
  · by_cases hlm : lm.isEmpty = true
    · simp [classify, hlm]
    · have hlm2 : lm.isEmpty = false := by
        cases h : lm.isEmpty
        · rfl
        · exact absurd h hlm
      cases t with
      | nil => rfl
      | cons e0 t0 =>
        have hL : classify (e0 :: t0) lm =
            ((e0 :: t0).foldl (classifyStep lm) none).map Prod.fst := by
          simp [classify, hlm2]
        cases hf : (e0 :: t0).filter (fun e => e.2.length == lm.length) with
        | nil =>
          have hR : classify ([] : List (String × List Point)) lm = none := by
            simp [classify]
          rw [hL, hR, foldl_classifyStep_filter lm (e0 :: t0) none, hf]
          rfl
        | cons g gs =>
          have hR : classify (g :: gs) lm =
              ((g :: gs).foldl (classifyStep lm) none).map Prod.fst := by
            simp [classify, hlm2]
          rw [hL, hR, foldl_classifyStep_filter lm (e0 :: t0) none, hf]
  · intro label hcl
    unfold classify at hcl
    by_cases hemp : (t.isEmpty || lm.isEmpty) = true
    · rw [if_pos hemp] at hcl
      simp at hcl
    · rw [if_neg hemp] at hcl
      rcases Option.map_eq_some'.mp hcl with ⟨r, hr, hfst⟩
      obtain ⟨l0, s0⟩ := r
      rcases foldl_classifyStep_spec lm t none l0 s0 hr with ⟨hb, _⟩ | hwin
      · simp at hb
      · obtain ⟨i, hi, h1, h2, _, _, _, _⟩ := hwin
        refine ⟨(t.get ⟨i, hi⟩).2, ?_, h2⟩
        have hre : (label, (t.get ⟨i, hi⟩).2) = t.get ⟨i, hi⟩ := by
          rw [← hfst, ← h1]
        rw [hre]
        exact List.get_mem t i hi

/-- C3: the returned label sits at an index whose template passes the length
gate, scores weakly below every compatible template and strictly below every
earlier compatible template (so ties keep the first-seen template); whenever a
compatible template exists and the live frame is nonempty some label is
returned; and if any compatible template is at distance zero, the winner's
template is also at distance zero. -/
theorem classify_min_score_first (t : List (String × List Point)) (lm : List Point) :
    (∀ label, classify t lm = some label →
      ∃ i, ∃ h : i < t.length,
        (t.get ⟨i, h⟩).1 = label ∧ (t.get ⟨i, h⟩).2.length = lm.length ∧
        (∀ j, ∀ hj : j < t.length, (t.get ⟨j, hj⟩).2.length = lm.length →
          score lm (t.get ⟨i, h⟩).2 ≤ score lm (t.get ⟨j, hj⟩).2) ∧
        (∀ j, ∀ hj : j < t.length, j < i → (t.get ⟨j, hj⟩).2.length = lm.length →
          score lm (t.get ⟨i, h⟩).2 < score lm (t.get ⟨j, hj⟩).2)) ∧
    (lm ≠ [] → (∃ e ∈ t, e.2.length = lm.length) →
      ∃ label, classify t lm = some label) ∧
    (∀ label, classify t lm = some label →
      (∃ e ∈ t, e.2.length = lm.length ∧ score lm e.2 = 0) →
      ∃ i, ∃ h : i < t.length, (t.get ⟨i, h⟩).1 = label ∧
        score lm (t.get ⟨i, h⟩).2 = 0) := by
  have hmain : ∀ label, classify t lm = some label →
      ∃ i, ∃ h : i < t.length,
        (t.get ⟨i, h⟩).1 = label ∧ (t.get ⟨i, h⟩).2.length = lm.length ∧
        (∀ j, ∀ hj : j < t.length, (t.get ⟨j, hj⟩).2.length = lm.length →
          score lm (t.get ⟨i, h⟩).2 ≤ score lm (t.get ⟨j, hj⟩).2) ∧
        (∀ j, ∀ hj : j < t.length, j < i → (t.get ⟨j, hj⟩).2.length = lm.length →
          score lm (t.get ⟨i, h⟩).2 < score lm (t.get ⟨j, hj⟩).2) := by
    intro label hcl
    unfold classify at hcl
    by_cases hemp : (t.isEmpty || lm.isEmpty) = true
    · rw [if_pos hemp] at hcl
      simp at hcl
    · rw [if_neg hemp] at hcl
      rcases Option.map_eq_some'.mp hcl with ⟨r, hr, hfst⟩
      obtain ⟨l0, s0⟩ := r
      rcases foldl_classifyStep_spec lm t none l0 s0 hr with ⟨hb, _⟩ | hwin
      · simp at hb
      · obtain ⟨i, hi, h1, h2, h3, _, h5, h6⟩ := hwin
        refine ⟨i, hi, ?_, h2, ?_, ?_⟩
        · rw [h1]
          exact hfst
        · intro j hj hcj
          rw [← h3]
          exact h5 j hj hcj
        · intro j hj hji hcj
          rw [← h3]
          exact h6 j hj hji hcj
  refine ⟨hmain, ?_, ?_⟩
  · intro hlm hex
    rcases hex with ⟨e, he, hce⟩
    cases t with
    | nil => exact absurd he (List.not_mem_nil e)
    | cons e0 t0 =>
      cases lm with
      | nil => exact absurd rfl hlm
      | cons p lm0 =>
        have hcl : classify (e0 :: t0) (p :: lm0) =
            ((e0 :: t0).foldl (classifyStep (p :: lm0)) none).map Prod.fst := rfl
        cases hfold : (e0 :: t0).foldl (classifyStep (p :: lm0)) none with
        | none =>
          rcases (foldl_classifyStep_none (p :: lm0) (e0 :: t0) none).mp hfold with
            ⟨_, hall⟩
          exact absurd hce (hall e he)
        | some r =>
          refine ⟨r.1, ?_⟩
          rw [hcl, hfold]
          rfl
  · intro label hcl hex
    rcases hex with ⟨e, he, hce, hsc0⟩
    rcases hmain label hcl with ⟨i, hi, h1, _, hmin, _⟩
    rcases List.mem_iff_get.mp he with ⟨⟨j, hj⟩, hget⟩
    have hcj : (t.get ⟨j, hj⟩).2.length = lm.length := by
      rw [hget]
      exact hce
    have hle := hmin j hj hcj
    have hj0 : score lm (t.get ⟨j, hj⟩).2 = 0 := by
      rw [hget]
      exact hsc0
    have h0 := score_nonneg lm (t.get ⟨i, hi⟩).2
    refine ⟨i, hi, h1, ?_⟩
    rw [hj0] at hle
    linarith

/-- Concrete evaluation: with a unit-distance template listed first and an
exact-match template listed second, `classify` returns the exact match. -/
theorem classify_example_near :
    classify [("far", [ptFar]), ("near", [pt0])] [pt0] = some "near" := by
  have hlt : score [pt0] [pt0] < score [pt0] [ptFar] := by
    rw [score_self, score_pt0_ptFar]
    norm_num
  have hs1 : classifyStep [pt0] none ("far", [ptFar]) =
      some ("far", score [pt0] [ptFar]) := rfl
  have hs2 : classifyStep [pt0] (some ("far", score [pt0] [ptFar])) ("near", [pt0]) =
      some ("near", score [pt0] [pt0]) := by
    show (if score [pt0] [pt0] < score [pt0] [ptFar] then
        some ("near", score [pt0] [pt0]) else some ("far", score [pt0] [ptFar])) =
      some ("near", score [pt0] [pt0])
    exact if_pos hlt
  show (([("far", [ptFar]), ("near", [pt0])] : List (String × List Point)).foldl
      (classifyStep [pt0]) none).map Prod.fst = some "near"
  rw [List.foldl_cons, hs1, List.foldl_cons, hs2, List.foldl_nil]
  rfl

/-- Witness for C3 at a concrete input: the zero-distance template "near" is
selected over the unit-distance template "far" listed before it, and the
winner's stored template is indeed at distance zero. -/
theorem classify_min_score_first_witness :
    classify [("far", [ptFar]), ("near", [pt0])] [pt0] = some "near" ∧
    ∃ i, ∃ h : i < ([("far", [ptFar]), ("near", [pt0])] :
        List (String × List Point)).length,
      (([("far", [ptFar]), ("near", [pt0])] :
        List (String × List Point)).get ⟨i, h⟩).1 = "near" ∧
      score [pt0] (([("far", [ptFar]), ("near", [pt0])] :
        List (String × List Point)).get ⟨i, h⟩).2 = 0 :=
  ⟨classify_example_near,
    (classify_min_score_first [("far", [ptFar]), ("near", [pt0])] [pt0]).2.2
      "near" classify_example_near
      ⟨("near", [pt0]), by simp, rfl, score_self [pt0]⟩⟩

/-- Concrete evaluation: a two-point template is skipped by the length gate
and the compatible one-point template is selected. -/
theorem classify_example_ok :
    classify [("short", [pt0, ptFar]), ("ok", [pt0])] [pt0] = some "ok" := by
  have hs1 : classifyStep [pt0] none ("short", [pt0, ptFar]) = none := rfl
  have hs2 : classifyStep [pt0] none ("ok", [pt0]) =
      some ("ok", score [pt0] [pt0]) := rfl
  show (([("short", [pt0, ptFar]), ("ok", [pt0])] : List (String × List Point)).foldl
      (classifyStep [pt0]) none).map Prod.fst = some "ok"
  rw [List.foldl_cons, hs1, List.foldl_cons, hs2, List.foldl_nil]
  rfl

/-- Witness for C2 at a concrete input: an incompatible two-point template is
never selected against a one-point live frame, and the returned label "ok"
belongs to a template of matching length. -/
theorem classify_skips_incompatible_witness :
    classify [("short", [pt0, ptFar]), ("ok", [pt0])] [pt0] = some "ok" ∧
    ∃ f, ("ok", f) ∈ ([("short", [pt0, ptFar]), ("ok", [pt0])] :
        List (String × List Point)) ∧
      f.length = ([pt0] : List Point).length :=
  ⟨classify_example_ok,
    (classify_skips_incompatible [("short", [pt0, ptFar]), ("ok", [pt0])] [pt0]).2
      "ok" classify_example_ok⟩

end SignLink
